import Mathlib

/-!
Verification of the `evo-grid-pixels` presentation layer (`src/main.rs`) and of
the simulation-engine boundary it consumes from the `evo_grid::world` crate.

Embedding conventions:
* `u8` values are `ℕ` (always in `[0, 255]` in the program; theorems that need
  the bound take it as a hypothesis or conclude it).
* `[u8; 4]` / `[f32; 4]` pixels are four-element `List`s.
* Rust `f32` arithmetic is modelled exactly over `ℚ`.  The one place the
  program can produce a NaN — `alpha_blend`'s `0.0 / 0.0` when both layers are
  fully transparent, whose `as u8` cast then yields `0` — coincides with ℚ's
  total-division convention `0 / 0 = 0`, so the observable bytes agree.
* The `f32 → u8` `as` cast truncates toward zero and saturates to `[0, 255]`,
  with NaN mapping to `0`; `ratAsByte` below implements exactly that on ℚ.
-/

namespace EvoGridPixels

/-- A creature as exposed by `evo_grid::world::Creature`: an RGB colour triple
(three `u8` channels, modelled as `ℕ`). -/
structure Creature where
  color : ℕ × ℕ × ℕ
  deriving DecidableEq, Repr

/-- A substance as exposed by `evo_grid::world::Substance`: an RGB colour
triple and a normalized amount (an `f32` in `[0, 1]`, modelled as `ℚ`). -/
structure Substance where
  color : ℕ × ℕ × ℕ
  amount : ℚ
  deriving DecidableEq, Repr

/-- A grid cell as exposed by `evo_grid::world::GridCell`: an optional
creature occupant and an optional substance sample. -/
structure GridCell where
  creature : Option Creature
  substance : Option Substance
  deriving DecidableEq, Repr

/-- The Rust `f32 → u8` `as` cast on the ℚ model of the float value:
truncation toward zero, saturating into `[0, 255]`.  (Rust maps NaN to `0`;
the only NaN the program produces arises as `0.0 / 0.0`, which the ℚ model
already sends to `0`.) -/
def ratAsByte (q : ℚ) : ℕ :=
  if q ≤ 0 then 0 else min 255 ⌊q⌋.toNat

/-- Function `color_as_fractions` from `main.rs`: each `u8` channel divided by `0xff`
as an `f32` (here: exact division in ℚ). -/
def color_as_fractions (color : List ℕ) : List ℚ :=
  color.map (fun b : ℕ => (b : ℚ) / 255)

/-- Function `color_as_bytes` from `main.rs`: each channel multiplied by `0xff` and
cast `as u8`. -/
def color_as_bytes (color : List ℚ) : List ℕ :=
  color.map (fun q => ratAsByte (q * 255))

/-- Function `alpha_blend` from `main.rs` (standard "over" compositing): converts both
pixels to fractional channels, computes the blended alpha, and divides each
blended colour channel by it.  Both arguments are Rust `[u8; 4]` values, so
they always have exactly four channels; the fall-through arm is unreachable. -/
def alpha_blend (above below : List ℕ) : List ℕ :=
  match color_as_fractions above, color_as_fractions below with
  | [ar, ag, ab, above_alpha], [br, bg, bb, below_alpha] =>
      let result_alpha := above_alpha + below_alpha * (1 - above_alpha)
      color_as_bytes
        [(ar * above_alpha + br * below_alpha * (1 - above_alpha)) / result_alpha,
         (ag * above_alpha + bg * below_alpha * (1 - above_alpha)) / result_alpha,
         (ab * above_alpha + bb * below_alpha * (1 - above_alpha)) / result_alpha,
         result_alpha]
  | _, _ => []

/-- Function `render_cell_creature` from `main.rs`: an occupant renders as its RGB
colour, fully opaque; an empty slot renders fully transparent black. -/
def render_cell_creature : Option Creature → List ℕ
  | some creature => [creature.color.1, creature.color.2.1, creature.color.2.2, 0xff]
  | none => [0, 0, 0, 0]

/-- Function `render_cell_substance` from `main.rs`: a substance renders as its RGB
colour with alpha `(amount * 0xff) as u8`; an empty slot renders fully
transparent black. -/
def render_cell_substance : Option Substance → List ℕ
  | some substance => [substance.color.1, substance.color.2.1, substance.color.2.2,
      ratAsByte (substance.amount * 255)]
  | none => [0, 0, 0, 0]

/-- Function `render_cell` from `main.rs`: the substance layer alpha-blended over the
creature layer. -/
def render_cell (cell : GridCell) : List ℕ :=
  alpha_blend (render_cell_substance cell.substance) (render_cell_creature cell.creature)

/-- The state the `evo_grid::world::Random` generator threads.  Modelled from
the spec: the spec fixes only that the generator is seedable and fully
deterministic (`RandomSource` §4.1); a 64-bit linear-congruential step stands
in for the unavailable concrete generator. -/
structure Random where
  state : ℕ
  deriving DecidableEq, Repr

/-- Modelled from the spec: `RandomSource::new(seed)` constructs the generator
in a fixed initial state determined by the seed. -/
def Random.new (seed : ℕ) : Random :=
  ⟨seed % 2 ^ 64⟩

/-- Modelled from the spec: one deterministic `next_*` step of the generator,
returning a value and the advanced generator (64-bit LCG, overflow mod 2^64). -/
def Random.next (r : Random) : ℕ × Random :=
  let s := (r.state * 6364136223846793005 + 1442695040888963407) % 2 ^ 64
  (s, ⟨s⟩)

/-- The `World` error taxonomy.  Modelled from the spec: `InvalidDimensions`
is the only user-facing construction-time error kind (§7). -/
inductive WorldError where
  | InvalidDimensions
  deriving DecidableEq, Repr

/-- The simulation engine `evo_grid::world::World`.  Modelled from the spec:
a fixed `width × height` grid of cells in a flat row-major array, plus the
engine-owned random source (§3 Grid, §4.3). -/
structure World where
  width : ℕ
  height : ℕ
  cells : List GridCell
  rng : Random
  deriving DecidableEq, Repr

/-- Modelled from the spec: `num_cells()` returns `width * height` (§4.2). -/
def World.num_cells (w : World) : ℕ :=
  w.width * w.height

/-- Modelled from the spec: `cells_iter()` yields the cells in fixed
row-major order, read-only, reflecting the grid state at call time (§4.2);
in the flat row-major embedding this is the cell list itself. -/
def World.cells_iter (w : World) : List GridCell :=
  w.cells

/-- The spec's invariant that `cells_iter()` produces exactly `num_cells()`
cells (one per grid position, row-major).  True of every constructed world;
theorems about buffer pairing assume it. -/
def World.sized (w : World) : Prop :=
  w.cells.length = w.num_cells

instance (w : World) : Decidable w.sized := by
  unfold World.sized; infer_instance

/-- Modelled from the spec: `World::new(width, height, seed)` allocates
`width * height` empty cells and the seeded random source, failing with
`InvalidDimensions` when width or height is zero (§4.2, §6). -/
def World.new (width height seed : ℕ) : Except WorldError World :=
  if width = 0 ∨ height = 0 then
    .error .InvalidDimensions
  else
    .ok ⟨width, height, List.replicate (width * height) ⟨none, none⟩, Random.new seed⟩

/-- Modelled from the spec: decay factor for the field phase (§8 scenario
constant; the spec treats the exact value as a configuration surface). -/
def decayFactor : ℚ := 1 / 10

/-- Modelled from the spec: diffusion fraction per in-bounds neighbor (§8
scenario constant). -/
def diffusionFraction : ℚ := 1 / 10

/-- Substance amount held at position `(x, y)` of the row-major cell list
(zero when the position is out of range or the slot is empty). -/
def World.amountAt (w : World) (x y : ℕ) : ℚ :=
  match (w.cells.getD (y * w.width + x) ⟨none, none⟩).substance with
  | some s => s.amount
  | none => 0

/-- The 4-connected in-bounds neighborhood under the clamped boundary policy
(spec §3 Grid: out-of-range neighbors simply do not exist). -/
def inBoundsNeighbors (width height x y : ℕ) : List (ℕ × ℕ) :=
  (if 0 < x then [(x - 1, y)] else []) ++
  (if x + 1 < width then [(x + 1, y)] else []) ++
  (if 0 < y then [(x, y - 1)] else []) ++
  (if y + 1 < height then [(x, y + 1)] else [])

/-- Modelled from the spec: the new field amount of a cell after one field
phase — decayed remainder minus the fraction diffused to each in-bounds
neighbor, plus the fractions received from each neighbor, all computed from
the previous tick's snapshot (§4.3 phase 1). -/
def World.newAmount (w : World) (x y : ℕ) : ℚ :=
  let a := w.amountAt x y
  let ns := inBoundsNeighbors w.width w.height x y
  a * (1 - decayFactor) - diffusionFraction * a * ns.length +
    (ns.map (fun p => diffusionFraction * w.amountAt p.1 p.2)).sum

/-- Modelled from the spec: the field-phase update of one cell; a cell whose
slot is empty stays empty, and a resulting amount at or below zero empties
the slot (§4.3 phase 1). -/
def fieldPhaseCell (w : World) (x y : ℕ) (c : GridCell) : GridCell :=
  match c.substance with
  | none => c
  | some s =>
      let a := w.newAmount x y
      { c with substance := if a ≤ 0 then none else some { s with amount := a } }

/-- Modelled from the spec: the field phase — every cell updated from the
read-only snapshot of the previous tick's amounts, written into a fresh
buffer (§4.3 phase 1). -/
def World.fieldPhase (w : World) : World :=
  { w with
    cells := (List.range w.cells.length).map (fun i =>
      fieldPhaseCell w (i % w.width) (i / w.width) (w.cells.getD i ⟨none, none⟩)) }

/-- Modelled from the spec: one tick, `advance()` (called `update` at the
`main.rs` call site).  The spec leaves the precise occupant rules open (§9
"Open question"); the occupant phase is modelled as the spec's "do nothing if
isolated" scenario rule (§8) — occupants stay in place — while the random
source advances deterministically as the phase's probabilistic branches
consume it (§4.1). -/
def World.update (w : World) : World :=
  let w1 := w.fieldPhase
  { w1 with rng := (w1.rng.next).2 }

/-- The tick `advance()` iterated `n` times. -/
def World.advanceN (n : ℕ) (w : World) : World :=
  Nat.iterate World.update n w

/-- One frame's worth of the input-helper state observed by the event loop in
`main.rs`: which keys were pressed this iteration, whether a close was
requested, and whether a window resize arrived and `resize_surface` failed. -/
structure InputFrame where
  escPressed : Bool
  closeRequested : Bool
  pPressed : Bool
  spacePressed : Bool
  windowResized : Bool
  resizeFails : Bool
  deriving DecidableEq, Repr

/-- Outcome of one accepted event-loop iteration: whether the loop exited,
the paused flag afterwards, and whether `world.update()` was invoked. -/
structure StepResult where
  exited : Bool
  paused : Bool
  worldUpdated : Bool
  deriving DecidableEq, Repr

/-- The body of the `input.update(&event)` branch of the event loop in
`main.rs`: exit on Escape or close request; P toggles `paused`; Space forces
`paused` (frame-step); a failed `resize_surface` exits; otherwise
`world.update()` runs exactly when `!paused || space`. -/
def loop_step (paused : Bool) (i : InputFrame) : StepResult :=
  if i.escPressed || i.closeRequested then
    { exited := true, paused := paused, worldUpdated := false }
  else
    let paused := if i.pPressed then !paused else paused
    let paused := if i.spacePressed then true else paused
    if i.windowResized && i.resizeFails then
      { exited := true, paused := paused, worldUpdated := false }
    else
      { exited := false, paused := paused, worldUpdated := !paused || i.spacePressed }

/-- The exact chunks of size 4 of a byte buffer, as produced by Rust's
`chunks_exact_mut(4)`: successive 4-byte chunks, any remainder of fewer than
4 trailing bytes excluded. -/
def chunks4 : List ℕ → List (List ℕ)
  | [] => []
  | [_] => []
  | [_, _] => []
  | [_, _, _] => []
  | a :: b :: c :: d :: rest => [a, b, c, d] :: chunks4 rest

/-- The in-place traversal of `draw_grid_cells` in `main.rs`: the cell list
zipped against the exact 4-byte chunks of the screen buffer, each paired
chunk overwritten (`copy_from_slice`) with the rendered pixel; the zip stops
at the shorter side, and bytes past the last full chunk are untouched. -/
def writePixels : List GridCell → List ℕ → List ℕ
  | [], screen => screen
  | _ :: _, [] => []
  | _ :: _, [a] => [a]
  | _ :: _, [a, b] => [a, b]
  | _ :: _, [a, b, c] => [a, b, c]
  | cell :: cells, _ :: _ :: _ :: _ :: rest => render_cell cell ++ writePixels cells rest

/-- Function `draw_grid_cells` from `main.rs`, as the function from the old screen
buffer to the new one (the world is only read).  The `debug_assert_eq!` at
its entry checks `draw_grid_cells_assert`. -/
def draw_grid_cells (world : World) (screen : List ℕ) : List ℕ :=
  writePixels world.cells_iter screen

/-- The proposition checked by the `debug_assert_eq!` at the entry of
`draw_grid_cells`: the screen buffer holds exactly four bytes per cell. -/
def draw_grid_cells_assert (world : World) (screen : List ℕ) : Prop :=
  screen.length = 4 * world.num_cells

instance (world : World) (screen : List ℕ) :
    Decidable (draw_grid_cells_assert world screen) := by
  unfold draw_grid_cells_assert; infer_instance

/-! Helper lemmas. -/

/-- The `f32 → u8` cast is the identity on byte values already in range. -/
theorem ratAsByte_natCast (n : ℕ) (h : n ≤ 255) : ratAsByte n = n := by
  unfold ratAsByte
  rcases Nat.eq_zero_or_pos n with h0 | h0
  · subst h0; simp
  · rw [if_neg (by push_neg; exact_mod_cast h0), Int.floor_natCast]
    simpa using Nat.min_eq_right h

/-- For an in-range product, the cast is plain truncation (no clamping). -/
theorem ratAsByte_eq_floor (q : ℚ) (h0 : 0 ≤ q) (h1 : q ≤ 255) :
    ratAsByte q = ⌊q⌋.toNat := by
  unfold ratAsByte
  rcases le_or_lt q 0 with hle | hlt
  · rw [if_pos hle]
    have : q = 0 := le_antisymm hle h0
    simp [this]
  · rw [if_neg (not_le.mpr hlt)]
    have hfl : ⌊q⌋ ≤ 255 := by
      have := Int.floor_le_floor h1
      simpa using this
    have : ⌊q⌋.toNat ≤ 255 := by omega
    omega

/-- Chunking by `chunks_exact(4)` produces `⌊len / 4⌋` chunks. -/
theorem chunks4_length : ∀ l : List ℕ, (chunks4 l).length = l.length / 4
  | [] => by simp [chunks4]
  | [_] => by simp [chunks4]
  | [_, _] => by simp [chunks4]
  | [_, _, _] => by simp [chunks4]
  | _ :: _ :: _ :: _ :: rest => by
      simp only [chunks4, List.length_cons, chunks4_length rest]
      omega

/-- Every rendered pixel is exactly four bytes. -/
theorem render_cell_length (c : GridCell) : (render_cell c).length = 4 := by
  obtain ⟨cr, sb⟩ := c
  cases cr <;> cases sb <;>
    simp [render_cell, render_cell_creature, render_cell_substance, alpha_blend,
      color_as_fractions, color_as_bytes]

/-! Claim theorems. -/

/-- C1: In every accepted event-loop iteration that does not exit,
`world.update()` runs if and only if the simulation is not paused (after this
iteration's key handling) or Space was pressed; P toggles the paused flag and
Space forces it to `true`, so a paused iteration with no Space press never
advances the world. -/
theorem loop_step_spec (paused : Bool) (i : InputFrame)
    (h : (loop_step paused i).exited = false) :
    ((loop_step paused i).worldUpdated = true ↔
      (loop_step paused i).paused = false ∨ i.spacePressed = true) ∧
    (loop_step paused i).paused =
      (if i.spacePressed then true else if i.pPressed then !paused else paused) ∧
    (paused = true → i.pPressed = false → i.spacePressed = false →
      (loop_step paused i).worldUpdated = false) := by
  obtain ⟨e, c, p, s, wr, rf⟩ := i
  revert h
  cases paused <;> cases e <;> cases c <;> cases p <;> cases s <;> cases wr <;> cases rf <;>
    decide

/-- C1 witness: a concrete paused iteration with Space pressed does call
`world.update()`. -/
theorem loop_step_spec_witness :
    (loop_step true ⟨false, false, false, true, false, false⟩).worldUpdated = true :=
  ((loop_step_spec true ⟨false, false, false, true, false, false⟩ (by decide)).1).mpr
    (Or.inr rfl)

/-- C4: a creature with colour `[r, g, b]` renders as the fully opaque pixel
`[r, g, b, 0xff]` — the RGB triple round-trips unchanged — and an empty
creature slot renders as the fully transparent pixel. -/
theorem render_cell_creature_spec (r g b : ℕ) :
    render_cell_creature (some ⟨(r, g, b)⟩) = [r, g, b, 0xff] ∧
    render_cell_creature none = [0, 0, 0, 0] :=
  ⟨rfl, rfl⟩

/-- C5: a substance with colour `[r, g, b]` and amount in `[0, 1]` renders
with its RGB triple unchanged and alpha `amount * 255` truncated to a byte —
`0` at amount `0`, `255` at amount `1` — and an empty substance slot renders
as the fully transparent pixel. -/
theorem render_cell_substance_spec (r g b : ℕ) (a : ℚ) (h0 : 0 ≤ a) (h1 : a ≤ 1) :
    render_cell_substance (some ⟨(r, g, b), a⟩) = [r, g, b, ⌊a * 255⌋.toNat] ∧
    render_cell_substance (some ⟨(r, g, b), 0⟩) = [r, g, b, 0] ∧
    render_cell_substance (some ⟨(r, g, b), 1⟩) = [r, g, b, 255] ∧
    render_cell_substance none = [0, 0, 0, 0] := by
  refine ⟨?_, ?_, ?_, rfl⟩
  · simp only [render_cell_substance]
    rw [ratAsByte_eq_floor]
    · positivity
    · nlinarith
  · simp [render_cell_substance, ratAsByte]
  · simp only [render_cell_substance]
    norm_num
    rw [show ((255 : ℚ)) = ((255 : ℕ) : ℚ) by norm_num, ratAsByte_natCast 255 le_rfl]

/-- C5 witness: amount `1/2` renders with alpha `⌊127.5⌋ = 127`. -/
theorem render_cell_substance_spec_witness :
    render_cell_substance (some ⟨(1, 2, 3), 1 / 2⟩) =
      [1, 2, 3, ⌊(1 / 2 : ℚ) * 255⌋.toNat] :=
  (render_cell_substance_spec 1 2 3 (1 / 2) (by norm_num) (by norm_num)).1

/-- C8: rendering a cell with no creature and no substance is total and
returns the fully transparent pixel; both layers have alpha `0`, so the
blended alpha is `0` and each channel divides `0` by `0` (the ℚ model's
`0 / 0 = 0` matching Rust's NaN-to-`u8` cast result of `0`). -/
theorem render_cell_empty :
    render_cell ⟨none, none⟩ = [0, 0, 0, 0] ∧
    alpha_blend [0, 0, 0, 0] [0, 0, 0, 0] = [0, 0, 0, 0] := by
  constructor <;>
    norm_num [render_cell, render_cell_substance, render_cell_creature, alpha_blend,
      color_as_fractions, color_as_bytes, ratAsByte]

/-- C6: constructing the engine with `(width, height, seed)` yields the
engine exactly when both dimensions are nonzero, and the typed
`InvalidDimensions` failure exactly when width or height is zero. -/
theorem world_new_spec (width height seed : ℕ) :
    (width ≠ 0 ∧ height ≠ 0 → ∃ w, World.new width height seed = .ok w) ∧
    ((width = 0 ∨ height = 0) →
      World.new width height seed = .error .InvalidDimensions) := by
  constructor
  · rintro ⟨hw, hh⟩
    exact ⟨_, by rw [World.new, if_neg (by push_neg; exact ⟨hw, hh⟩)]⟩
  · intro h
    rw [World.new, if_pos h]

/-- C6 witness: a 2×3 construction succeeds; a zero-width construction fails
with `InvalidDimensions`. -/
theorem world_new_spec_witness :
    (World.new 2 3 7).isOk = true ∧
    World.new 0 3 7 = .error .InvalidDimensions := by
  obtain ⟨w, hw⟩ := (world_new_spec 2 3 7).1 ⟨by decide, by decide⟩
  exact ⟨by rw [hw]; rfl, (world_new_spec 0 3 7).2 (Or.inl rfl)⟩

/-- C7: two engines freshly constructed from the same `(width, height, seed)`
— hence the same seed and the same initial grid — agree bit-for-bit after any
number `n` of ticks: the simulation trace is fully reproducible. -/
theorem world_determinism (width height seed n : ℕ) (w1 w2 : World)
    (h1 : World.new width height seed = .ok w1)
    (h2 : World.new width height seed = .ok w2) :
    World.advanceN n w1 = World.advanceN n w2 := by
  rw [h1] at h2
  cases h2
  rfl

/-- C7 witness: a concrete 2×2, seed-5 double construction agrees after two
ticks. -/
theorem world_determinism_witness :
    World.advanceN 2 ⟨2, 2, List.replicate 4 ⟨none, none⟩, ⟨5⟩⟩ =
      World.advanceN 2 ⟨2, 2, List.replicate 4 ⟨none, none⟩, ⟨5⟩⟩ :=
  world_determinism 2 2 5 2 _ _ (by rfl) (by rfl)

/-- Casting a byte to a fraction and back through the `* 255` conversion is
the identity. -/
theorem ratAsByte_div_mul (x : ℕ) (hx : x ≤ 255) : ratAsByte ((x : ℚ) / 255 * 255) = x := by
  rw [div_mul_cancel₀ _ (by norm_num : (255 : ℚ) ≠ 0)]
  exact ratAsByte_natCast x hx

/-- Blending a fully transparent above layer over any valid pixel with
nonzero alpha returns that pixel unchanged. -/
theorem alpha_blend_transparent (r g b a : ℕ) (hr : r ≤ 255) (hg : g ≤ 255)
    (hb : b ≤ 255) (ha : a ≤ 255) (ha0 : a ≠ 0) :
    alpha_blend [0, 0, 0, 0] [r, g, b, a] = [r, g, b, a] := by
  have hba : (a : ℚ) / 255 ≠ 0 :=
    div_ne_zero (Nat.cast_ne_zero.mpr ha0) (by norm_num)
  simp only [alpha_blend, color_as_fractions, List.map_cons, List.map_nil, Nat.cast_zero,
    zero_div, zero_mul, zero_add, mul_zero, sub_zero, mul_one]
  rw [mul_div_cancel_right₀ _ hba, mul_div_cancel_right₀ _ hba, mul_div_cancel_right₀ _ hba]
  simp only [color_as_bytes, List.map_cons, List.map_nil]
  rw [ratAsByte_div_mul r hr, ratAsByte_div_mul g hg, ratAsByte_div_mul b hb,
    ratAsByte_div_mul a ha]

/-- C3/C10 helper: writing the rendered pixels into a buffer of exactly four
bytes per cell places the `i`-th pixel at bytes `4i .. 4i + 4`. -/
theorem writePixels_pixel : ∀ (cs : List GridCell) (s : List ℕ) (i : ℕ),
    s.length = 4 * cs.length → i < cs.length →
    ((writePixels cs s).drop (4 * i)).take 4 = render_cell (cs.getD i ⟨none, none⟩)
  | [], _, i, _, hi => absurd hi (by simp)
  | _ :: _, [], _, hs, _ => by simp at hs
  | _ :: _, [_], _, hs, _ => by simp at hs; omega
  | _ :: _, [_, _], _, hs, _ => by simp at hs; omega
  | _ :: _, [_, _, _], _, hs, _ => by simp at hs; omega
  | c :: cs, a :: b :: c' :: d :: rest, 0, hs, _ => by
      simp only [writePixels, Nat.mul_zero, List.drop_zero, List.getD_cons_zero]
      rw [← render_cell_length c]
      exact List.take_left _ _
  | c :: cs, a :: b :: c' :: d :: rest, i + 1, hs, hi => by
      have hrest : rest.length = 4 * cs.length := by
        simp only [List.length_cons] at hs; omega
      simp only [writePixels, List.getD_cons_succ]
      rw [show 4 * (i + 1) = (render_cell c).length + 4 * i by rw [render_cell_length]; ring,
        List.drop_append]
      exact writePixels_pixel cs rest i hrest (by simpa using hi)

/-- C10 helper: the write traversal preserves the buffer length and leaves
every byte past the last written chunk unchanged. -/
theorem writePixels_frame : ∀ (cs : List GridCell) (s : List ℕ),
    (writePixels cs s).length = s.length ∧
    (writePixels cs s).drop (4 * min cs.length (s.length / 4)) =
      s.drop (4 * min cs.length (s.length / 4))
  | [], s => by simp [writePixels]
  | _ :: _, [] => by simp [writePixels]
  | _ :: _, [_] => by constructor <;> simp [writePixels]
  | _ :: _, [_, _] => by constructor <;> simp [writePixels]
  | _ :: _, [_, _, _] => by constructor <;> simp [writePixels]
  | c :: cs, a :: b :: c' :: d :: rest => by
      obtain ⟨ih1, ih2⟩ := writePixels_frame cs rest
      constructor
      · simp only [writePixels, List.length_append, render_cell_length, ih1, List.length_cons]
        omega
      · have hmin : min (c :: cs).length ((a :: b :: c' :: d :: rest).length / 4) =
            min cs.length (rest.length / 4) + 1 := by
          simp only [List.length_cons]
          rw [show (rest.length + 1 + 1 + 1 + 1) / 4 = rest.length / 4 + 1 by omega,
            Nat.succ_min_succ]
        rw [hmin,
          show 4 * (min cs.length (rest.length / 4) + 1) =
            (render_cell c).length + 4 * min cs.length (rest.length / 4) by
              rw [render_cell_length]; ring]
        simp only [writePixels]
        rw [List.drop_append, render_cell_length,
          Nat.add_comm 4 (4 * min cs.length (rest.length / 4)),
          show ∀ n : ℕ, (a :: b :: c' :: d :: rest).drop (n + 4) = rest.drop n from
            fun n => rfl]
        exact ih2

/-- C9: blending a fully transparent above layer is the identity on any
valid below pixel with nonzero alpha, so a cell holding a creature and no
substance renders as the creature's opaque pixel unchanged. -/
theorem alpha_blend_transparent_above (r g b a : ℕ) (hr : r ≤ 255) (hg : g ≤ 255)
    (hb : b ≤ 255) (ha : a ≤ 255) (ha0 : a ≠ 0) :
    alpha_blend [0, 0, 0, 0] [r, g, b, a] = [r, g, b, a] ∧
    render_cell ⟨some ⟨(r, g, b)⟩, none⟩ = [r, g, b, 0xff] := by
  refine ⟨alpha_blend_transparent r g b a hr hg hb ha ha0, ?_⟩
  show alpha_blend [0, 0, 0, 0] [r, g, b, 255] = [r, g, b, 255]
  exact alpha_blend_transparent r g b 255 hr hg hb le_rfl (by norm_num)

/-- C9 witness: a concrete pixel survives blending under a transparent layer,
and a concrete creature-only cell renders as its opaque colour. -/
theorem alpha_blend_transparent_above_witness :
    alpha_blend [0, 0, 0, 0] [7, 8, 9, 123] = [7, 8, 9, 123] ∧
    render_cell ⟨some ⟨(7, 8, 9)⟩, none⟩ = [7, 8, 9, 0xff] :=
  alpha_blend_transparent_above 7 8 9 123 (by norm_num) (by norm_num) (by norm_num)
    (by norm_num) (by norm_num)

/-- C2: on a screen buffer of exactly `4 * num_cells()` bytes, the debug
assertion at the entry of `draw_grid_cells` holds and the zip of
`cells_iter()` against the exact 4-byte chunks pairs every cell with exactly
one pixel — no cell and no chunk is left unpaired. -/
theorem draw_grid_cells_pairing (w : World) (screen : List ℕ)
    (hw : w.sized) (hs : screen.length = 4 * w.num_cells) :
    draw_grid_cells_assert w screen ∧
    (w.cells_iter.zip (chunks4 screen)).length = w.num_cells ∧
    w.cells_iter.length = w.num_cells ∧
    (chunks4 screen).length = w.num_cells := by
  have hc : (chunks4 screen).length = w.num_cells := by
    rw [chunks4_length, hs]; omega
  have hl : w.cells_iter.length = w.num_cells := hw
  exact ⟨hs, by rw [List.length_zip, hl, hc, min_self], hl, hc⟩

/-- C2 witness: a concrete 1×2 world with its exactly sized 8-byte buffer. -/
theorem draw_grid_cells_pairing_witness :
    draw_grid_cells_assert ⟨1, 2, [⟨none, none⟩, ⟨none, none⟩], ⟨0⟩⟩
        [0, 0, 0, 0, 0, 0, 0, 0] ∧
    ((World.cells_iter ⟨1, 2, [⟨none, none⟩, ⟨none, none⟩], ⟨0⟩⟩).zip
        (chunks4 [0, 0, 0, 0, 0, 0, 0, 0])).length =
      World.num_cells ⟨1, 2, [⟨none, none⟩, ⟨none, none⟩], ⟨0⟩⟩ ∧
    (World.cells_iter ⟨1, 2, [⟨none, none⟩, ⟨none, none⟩], ⟨0⟩⟩).length =
      World.num_cells ⟨1, 2, [⟨none, none⟩, ⟨none, none⟩], ⟨0⟩⟩ ∧
    (chunks4 [0, 0, 0, 0, 0, 0, 0, 0]).length =
      World.num_cells ⟨1, 2, [⟨none, none⟩, ⟨none, none⟩], ⟨0⟩⟩ :=
  draw_grid_cells_pairing ⟨1, 2, [⟨none, none⟩, ⟨none, none⟩], ⟨0⟩⟩
    [0, 0, 0, 0, 0, 0, 0, 0] (by decide) (by decide)

/-- C3: after `draw_grid_cells` on an exactly sized buffer, the `i`-th 4-byte
pixel (bytes `4i .. 4i + 4`) is `render_cell` of the `i`-th cell of
`cells_iter()` — the pixels appear in the cells' row-major iteration order. -/
theorem draw_grid_cells_pixels (w : World) (screen : List ℕ) (hw : w.sized)
    (hs : screen.length = 4 * w.num_cells) (i : ℕ) (hi : i < w.num_cells) :
    ((draw_grid_cells w screen).drop (4 * i)).take 4 =
      render_cell (w.cells_iter.getD i ⟨none, none⟩) := by
  have hl : w.cells_iter.length = w.num_cells := hw
  exact writePixels_pixel w.cells_iter screen i (by omega) (by omega)

/-- C3 witness: in a concrete 1×2 world, the second pixel of the drawn
buffer is the rendering of the second cell. -/
theorem draw_grid_cells_pixels_witness :
    ((draw_grid_cells ⟨1, 2, [⟨some ⟨(1, 2, 3)⟩, none⟩, ⟨none, none⟩], ⟨0⟩⟩
        [9, 9, 9, 9, 9, 9, 9, 9]).drop (4 * 1)).take 4 =
      render_cell ((World.cells_iter
        ⟨1, 2, [⟨some ⟨(1, 2, 3)⟩, none⟩, ⟨none, none⟩], ⟨0⟩⟩).getD 1 ⟨none, none⟩) :=
  draw_grid_cells_pixels ⟨1, 2, [⟨some ⟨(1, 2, 3)⟩, none⟩, ⟨none, none⟩], ⟨0⟩⟩
    [9, 9, 9, 9, 9, 9, 9, 9] (by decide) (by decide) 1 (by decide)

/-- C10: `draw_grid_cells` reads the world and writes only the first
`4 * min(num_cells, ⌊len / 4⌋)` bytes of the screen buffer: the buffer keeps
its length and every trailing byte — in particular the remainder of a length
not divisible by four, or the excess of an over-long buffer — is unchanged. -/
theorem draw_grid_cells_frame (w : World) (screen : List ℕ) (hw : w.sized) :
    (draw_grid_cells w screen).length = screen.length ∧
    (draw_grid_cells w screen).drop (4 * min w.num_cells (screen.length / 4)) =
      screen.drop (4 * min w.num_cells (screen.length / 4)) := by
  obtain ⟨h1, h2⟩ := writePixels_frame w.cells_iter screen
  have hl : w.cells_iter.length = w.num_cells := hw
  rw [hl] at h2
  exact ⟨h1, h2⟩

/-- C10 witness: an 11-byte buffer for a 1×1 world keeps its length and its
trailing seven bytes. -/
theorem draw_grid_cells_frame_witness :
    (draw_grid_cells ⟨1, 1, [⟨none, none⟩], ⟨0⟩⟩
        [9, 9, 9, 9, 9, 9, 9, 9, 9, 9, 9]).length = 11 ∧
    (draw_grid_cells ⟨1, 1, [⟨none, none⟩], ⟨0⟩⟩
        [9, 9, 9, 9, 9, 9, 9, 9, 9, 9, 9]).drop
        (4 * min (World.num_cells ⟨1, 1, [⟨none, none⟩], ⟨0⟩⟩) (11 / 4)) =
      [9, 9, 9, 9, 9, 9, 9, 9, 9, 9, 9].drop
        (4 * min (World.num_cells ⟨1, 1, [⟨none, none⟩], ⟨0⟩⟩) (11 / 4)) :=
  draw_grid_cells_frame ⟨1, 1, [⟨none, none⟩], ⟨0⟩⟩
    [9, 9, 9, 9, 9, 9, 9, 9, 9, 9, 9] (by decide)

end EvoGridPixels
